import Mathlib

/-!
Shallow embedding of `src/data_cleaning.py`, a pandas data-cleaning script.

A DataFrame is a header (list of column names) together with a list of rows,
each row a list of cells.  A cell is a string, a (rational) number, or the
null sentinel (pandas NaN).  Rationals stand in for pandas floats; the claims
under study never depend on floating-point rounding.

Column access `df[c]` resolves a label to the position of its first
occurrence in the header and fails (pandas KeyError) when the label is
absent; the script's whole run is therefore modelled as an `Option`-valued
function, `none` meaning the run aborts before writing any output.
-/

/-- A cell of the table: a string, a number (pandas float, modelled as `Rat`),
or the null sentinel (pandas `NaN`). -/
inductive Value where
  | str : String → Value
  | num : Rat → Value
  | null : Value
deriving DecidableEq, Repr

/-- ASCII whitespace recognised by the trim operation (Python `str.strip()`;
the less common control characters are immaterial to the claims). -/
def isWS (c : Char) : Bool :=
  (c == ' ') || (c == '\t') || (c == '\n') || (c == '\r')

/-- Remove leading and trailing whitespace characters from a character list. -/
def trimChars (l : List Char) : List Char :=
  ((l.dropWhile isWS).reverse.dropWhile isWS).reverse

/-- Python `s.strip()` on a string. -/
def stripString (s : String) : String :=
  String.mk (trimChars s.toList)

/-- Accumulate a decimal digit string; fails on any non-digit. -/
def readDigitsAux : List Char → Nat → Option Nat
  | [], acc => some acc
  | c :: cs, acc =>
    if c.isDigit then readDigitsAux cs (acc * 10 + (c.toNat - 48)) else none

/-- Parse an unsigned decimal numeral, with an optional fractional part
(`"19"`, `"19.5"`, `".5"`, `"19."`).  Exponent notation is omitted from the
model; no claim involves it. -/
def parseUnsigned (l : List Char) : Option Rat :=
  match l.span (fun c => !(c == '.')) with
  | (ip, []) =>
    if ip.isEmpty then none else (readDigitsAux ip 0).map (fun n => (n : Rat))
  | (ip, _ :: fp) =>
    if ip.isEmpty && fp.isEmpty then none
    else
      match readDigitsAux ip 0, readDigitsAux fp 0 with
      | some a, some b => some ((a : Rat) + (b : Rat) / ((10 : Rat) ^ fp.length))
      | _, _ => none

/-- Parse a signed decimal numeral. -/
def parseRat (l : List Char) : Option Rat :=
  match l with
  | '-' :: rest => (parseUnsigned rest).map (fun q => -q)
  | '+' :: rest => parseUnsigned rest
  | _ => parseUnsigned l

/-- `pd.to_numeric(·, errors='coerce')` on one cell: numbers and nulls pass
through, strings are parsed (surrounding whitespace tolerated, as pandas
does) and unparsable strings coerce to null — never an error. -/
def toNumericCell : Value → Value
  | .num q => .num q
  | .null => .null
  | .str s =>
    match parseRat (trimChars s.toList) with
    | some q => .num q
    | none => .null

/-- `.replace('', np.nan)` on one cell: the exact empty string becomes null. -/
def replaceEmptyCell : Value → Value
  | .str s => if s = "" then .null else .str s
  | v => v

/-- Lines 15 and 18 of the script, composed cell-wise: empty string to null,
then numeric coercion. -/
def cleanDate (v : Value) : Value :=
  toNumericCell (replaceEmptyCell v)

/-- `.str.strip()` element-wise on one cell of an object-dtype column:
strings are trimmed; non-string elements come out as NaN, pandas'
element-wise behaviour on object columns.  Whether `.str` instead raises
`AttributeError` on a non-object column is decided per column by
`stripColumn`. -/
def stripCell : Value → Value
  | .str s => .str (stripString s)
  | _ => .null

/-- The in-memory table: header and rows. -/
structure DataFrame where
  cols : List String
  rows : List (List Value)
deriving DecidableEq, Repr

/-- Label lookup in the header: position of the first matching column name,
`none` when absent (pandas raises `KeyError` on `df[c]` then). -/
def colIdx (cols : List String) (c : String) : Option Nat :=
  match cols with
  | [] => none
  | c0 :: cs => if c0 = c then some 0 else (colIdx cs c).map (· + 1)

/-- Replace the element at one position of a list, leaving the list unchanged
when the position is out of range. -/
def modifyAt {α : Type} (f : α → α) : Nat → List α → List α
  | _, [] => []
  | 0, a :: as => f a :: as
  | n + 1, a :: as => a :: modifyAt f n as

/-- `df[c] = f(df[c])` column assignment: fails (KeyError) when `c` is not in
the header, otherwise applies `f` to the `c`-cell of every row. -/
def mapCol (c : String) (f : Value → Value) (df : DataFrame) : Option DataFrame :=
  match colIdx df.cols c with
  | none => none
  | some i => some ⟨df.cols, df.rows.map (modifyAt f i)⟩

/-- Scan keeping each element not yet seen, accumulating the seen ones. -/
def dedupAux {α : Type} [DecidableEq α] : List α → List α → List α
  | _, [] => []
  | seen, a :: as =>
    if a ∈ seen then dedupAux seen as else a :: dedupAux (a :: seen) as

/-- `df.drop_duplicates()` on the row list: keep the first occurrence of each
distinct row, in order. -/
def dropDuplicates {α : Type} [DecidableEq α] (l : List α) : List α :=
  dedupAux [] l

/-- Step 1 of the script (lines 15 and 18): normalize and coerce `date`. -/
def step1 (df : DataFrame) : Option DataFrame :=
  mapCol "date" cleanDate df

/-- Step 2 of the script (line 34): `df.drop_duplicates()`. -/
def step2 (df : DataFrame) : DataFrame :=
  ⟨df.cols, dropDuplicates df.rows⟩

/-- The three text columns of the standardization loop, in loop order. -/
def textCols : List String :=
  ["code_module", "code_presentation", "assessment_type"]

/-- A cell is a string. -/
def isStrB : Value → Bool
  | .str _ => true
  | _ => false

/-- A cell is a number. -/
def isNumB : Value → Bool
  | .num _ => true
  | _ => false

/-- The cells of the column at position `i`. -/
def colCells (rows : List (List Value)) (i : Nat) : List Value :=
  rows.filterMap (fun r => r[i]?)

/-- The column at position `i` supports the `.str` accessor: it is
object-dtype, i.e. empty or holding at least one string.  A nonempty column
with no string cell (all-numeric or all-NaN) is int64/float64 as produced by
`pd.read_csv`, and `.str.strip()` raises `AttributeError` on it. -/
def colObjectOkB (rows : List (List Value)) (i : Nat) : Bool :=
  (colCells rows i).isEmpty || (colCells rows i).any isStrB

/-- A column shape producible by `pd.read_csv`: object columns hold only
strings and NaN, numeric columns only numbers and NaN — never a string and
a number together. -/
def loadableColB (cs : List Value) : Bool :=
  !(cs.any isStrB && cs.any isNumB)

/-- One guarded iteration of the text-standardization loop (lines 45-48):
an absent column is silently skipped; a present non-object column makes
`.str.strip()` raise `AttributeError` (the run aborts); a present object
column is trimmed element-wise. -/
def stripColumn (df : DataFrame) (c : String) : Option DataFrame :=
  match colIdx df.cols c with
  | none => some df
  | some i =>
    if colObjectOkB df.rows i then
      some ⟨df.cols, df.rows.map (modifyAt stripCell i)⟩
    else none

/-- Step 3 of the script (lines 45-48), the loop unrolled in its source
order over the three text columns. -/
def step3 (df : DataFrame) : Option DataFrame :=
  (stripColumn df "code_module").bind
    (fun d => (stripColumn d "code_presentation").bind
      (fun d2 => stripColumn d2 "assessment_type"))

/-- The identity rename dictionary of step 5 (lines 60-65). -/
def renameAssoc : List (String × String) :=
  [("code_module", "code_module"), ("code_presentation", "code_presentation"),
   ("id_assessment", "id_assessment"), ("assessment_type", "assessment_type"),
   ("date", "date"), ("weight", "weight")]

/-- Apply the rename dictionary to one column name; names not in the
dictionary are kept (pandas `rename` semantics). -/
def renameMap (c : String) : String :=
  match renameAssoc.find? (fun q => q.1 == c) with
  | some q => q.2
  | none => c

/-- Step 5 of the script: `df.rename(columns=...)` with the dictionary above
(columns not in the dictionary keep their names). -/
def renameStep (df : DataFrame) : DataFrame :=
  ⟨df.cols.map renameMap, df.rows⟩

/-- Step 6 of the script (line 74): coerce `weight` to numeric. -/
def step6 (df : DataFrame) : Option DataFrame :=
  mapCol "weight" toNumericCell df

/-- The whole cleaning pipeline, the script's statements in source order.
`none` models a run aborted by an uncaught error (a KeyError of a column
access, or the AttributeError of `.str.strip()` on a non-object column). -/
def clean (df : DataFrame) : Option DataFrame :=
  match step1 df with
  | none => none
  | some d1 =>
    match step3 (step2 d1) with
    | none => none
    | some d3 => step6 (renameStep d3)

/-- Cell rendering for CSV serialization (null prints as the empty field;
the exact decimal rendering of numbers is immaterial to the claims). -/
def printCell : Value → String
  | .str s => s
  | .num q => toString q.num ++ (if q.den = 1 then "" else "." ++ toString q.den)
  | .null => ""

/-- `df_cleaned.to_csv('cleaned_assessments.csv', index=False)`: a header
row followed by the data rows, cell for cell — no row-index column. -/
def writtenCsv (df : DataFrame) : List (List String) :=
  df.cols :: df.rows.map (fun r => r.map printCell)

/-- The hard-coded summary literal of lines 84-110 (abbreviated verbatim
content; static, computed from no data). -/
def summaryText : String :=
  "\nData Cleaning Summary for assessments.csv:\n\n1.  **Missing Values:**\n    - Identified missing values in the \x27date\x27 column (represented by empty strings).\n    - Replaced empty strings in the \x27date\x27 column with NaN.\n    - Converted the \x27date\x27 column to a numeric type (float64), with non-numeric values becoming NaN.\n    - The remaining NaN values in \x27date\x27 likely correspond to Exam dates where the \x27date\x27 was not provided.\n\n2.  **Duplicate Rows:**\n    - Checked for duplicate rows and removed them. The shape of the DataFrame was inspected before and after.\n\n3.  **Text Standardization:**\n    - Applied `.strip()` to the \x27code_module\x27, \x27code_presentation\x27, and \x27assessment_type\x27 columns to remove any leading or trailing whitespace.\n\n4.  **Date Format Conversion:**\n    - The \x27date\x27 column was already in a numeric format (days). Missing values were handled. No further format conversion was needed.\n\n5.  **Column Renaming:**\n    - The column headers were already clean and uniform, so no renaming was strictly necessary, but the code for renaming is included for completeness.\n\n6.  **Data Type Checking:**\n    - Checked the data types of all columns.\n    - Ensured the \x27weight\x27 column is of a numeric type (float64).\n\nThe cleaned dataset is saved as \x27cleaned_assessments.csv\x27.\n"

/-- The full README content written at lines 116-118: fixed heading plus the
static summary. -/
def readmeText : String :=
  "# Data Cleaning Task 1 - Assessments Dataset\n\n" ++ summaryText

/-- A file write performed by the script. -/
inductive OutEvent where
  | csv : DataFrame → OutEvent
  | readme : String → OutEvent
deriving DecidableEq, Repr

/-- One whole run of the script on an in-memory input table: the sequence of
file writes it performs.  Every fallible operation (the column accesses of
steps 1 and 6) happens before line 80, so an aborted run writes nothing;
a completed run writes the CSV (line 80) and then the README (lines 116-118). -/
def run (input : DataFrame) : List OutEvent :=
  match clean input with
  | none => []
  | some y => [.csv y, .readme readmeText]

/-- A cell is numeric-or-null (never a string). -/
def isNumericB : Value → Bool
  | .str _ => false
  | _ => true

/-- All cells of column `c` (when present) satisfy `p`. -/
def colAll (df : DataFrame) (c : String) (p : Value → Bool) : Bool :=
  match colIdx df.cols c with
  | none => true
  | some i => df.rows.all (fun r => ((r[i]?).map p).getD true)

/-- The spec's own wording of duplicate removal, for the refinement claim:
keep the head row (its first occurrence), delete every later occurrence of
it, and continue on the rest. -/
def specDedup {α : Type} [DecidableEq α] : List α → List α
  | [] => []
  | a :: as => a :: specDedup (as.filter (fun b => !(decide (b = a))))
termination_by l => l.length
decreasing_by
  simp only [List.length_cons]
  exact Nat.lt_succ_of_le (List.length_filter_le _ _)

/-- The cell-level action of one guarded column update of step 3 on one row. -/
def applyColRow (cols : List String) (c : String) (f : Value → Value)
    (r : List Value) : List Value :=
  match colIdx cols c with
  | none => r
  | some j => modifyAt f j r

/-- The action of the whole text-standardization loop on one row. -/
def rowStrip (cols : List String) (r : List Value) : List Value :=
  applyColRow cols "assessment_type" stripCell
    (applyColRow cols "code_presentation" stripCell
      (applyColRow cols "code_module" stripCell r))

/-- Two optional cells are strings equal up to leading/trailing whitespace. -/
def wsEquivCellB : Option Value → Option Value → Bool
  | some (.str s1), some (.str s2) => decide (stripString s1 = stripString s2)
  | _, _ => false

/-- Position `i` is the position of one of the three text columns. -/
def isTextIdxB (cols : List String) (i : Nat) : Bool :=
  textCols.any (fun c => decide (colIdx cols c = some i))

/-- Two rows differ, but solely in leading/trailing whitespace of cells
sitting in the text columns: elsewhere they agree cell for cell. -/
def differOnlyByTextWS (cols : List String) (r1 r2 : List Value) : Bool :=
  decide (r1 ≠ r2) && decide (r1.length = r2.length) &&
  (List.range r1.length).all (fun i =>
    if isTextIdxB cols i then wsEquivCellB r1[i]? r2[i]?
    else decide (r1[i]? = r2[i]?))

/-! ### Concrete instances used as witnesses and counterexamples -/

/-- The fixed header of `assessments.csv`. -/
def exCols : List String :=
  ["code_module", "code_presentation", "id_assessment", "assessment_type",
   "date", "weight"]

/-- Two rows that differ only by a trailing space in `assessment_type`. -/
def dfDupWS : DataFrame :=
  ⟨exCols, [[.str "AAA", .str "2013J", .num 1, .str "TMA ", .null, .num 10],
            [.str "AAA", .str "2013J", .num 1, .str "TMA", .null, .num 10]]⟩

/-- The cleaned form of `dfDupWS`: both rows survive deduplication and are
then trimmed into exact duplicates. -/
def dfDupWSOut : DataFrame :=
  ⟨exCols, [[.str "AAA", .str "2013J", .num 1, .str "TMA", .null, .num 10],
            [.str "AAA", .str "2013J", .num 1, .str "TMA", .null, .num 10]]⟩

/-- Two rows that differ only by a leading space in `code_module`. -/
def dfTwice : DataFrame :=
  ⟨exCols, [[.str " BBB", .str "2014B", .num 2, .str "CMA", .num 20, .num 30],
            [.str "BBB", .str "2014B", .num 2, .str "CMA", .num 20, .num 30]]⟩

/-- First pass over `dfTwice`: trimming creates two identical rows. -/
def dfTwiceOut1 : DataFrame :=
  ⟨exCols, [[.str "BBB", .str "2014B", .num 2, .str "CMA", .num 20, .num 30],
            [.str "BBB", .str "2014B", .num 2, .str "CMA", .num 20, .num 30]]⟩

/-- Second pass over `dfTwiceOut1`: deduplication now removes a row. -/
def dfTwiceOut2 : DataFrame :=
  ⟨exCols, [[.str "BBB", .str "2014B", .num 2, .str "CMA", .num 20, .num 30]]⟩

/-- A one-row table whose cleaned output is duplicate-free. -/
def dfW2 : DataFrame :=
  ⟨exCols, [[.str "AAA", .str " 2013J", .num 1, .str "TMA", .str " 19 ",
             .str "10"]]⟩

/-- The cleaned form of `dfW2`. -/
def dfW2Out : DataFrame :=
  ⟨exCols, [[.str "AAA", .str "2013J", .num 1, .str "TMA", .num 19, .num 10]]⟩

/-- A row with an empty `date` and an unparsable `weight`. -/
def dfW3 : DataFrame :=
  ⟨exCols, [[.str " AAA", .str "2013J", .num 3, .str "Exam", .str "",
             .str "abc"]]⟩

/-- The cleaned form of `dfW3`: both coercion failures became null. -/
def dfW3Out : DataFrame :=
  ⟨exCols, [[.str "AAA", .str "2013J", .num 3, .str "Exam", .null, .null]]⟩

/-- A plain one-row table. -/
def dfW4 : DataFrame :=
  ⟨exCols, [[.str "EEE", .str "2017B", .num 6, .str "TMA", .str "12",
             .str "55"]]⟩

/-- The cleaned form of `dfW4`. -/
def dfW4Out : DataFrame :=
  ⟨exCols, [[.str "EEE", .str "2017B", .num 6, .str "TMA", .num 12, .num 55]]⟩

/-- A table whose header lacks the `date` column. -/
def dfNoDate : DataFrame :=
  ⟨["code_module", "weight"], [[.str "AAA", .num 10]]⟩

/-- A plain one-row table with a null `date` (an exam record). -/
def dfW8 : DataFrame :=
  ⟨exCols, [[.str "FFF", .str "2018J", .num 7, .str "Exam", .null, .num 100]]⟩

/-- The cleaned form of `dfW8`. -/
def dfW8Out : DataFrame :=
  ⟨exCols, [[.str "FFF", .str "2018J", .num 7, .str "Exam", .null, .num 100]]⟩

/-- A table whose `assessment_type` column is entirely numeric: as read by
`pd.read_csv` it would be int64 dtype, and `.str.strip()` raises on it. -/
def dfNum : DataFrame :=
  ⟨exCols, [[.str "CCC", .str "2015J", .num 4, .num 7, .num 12, .num 30]]⟩

/-- A row with a leading space inside `code_presentation`. -/
def rowA10 : List Value :=
  [.str "DDD", .str " 2016J", .num 5, .str "CMA", .num 23, .num 40]

/-- `rowA10` without the stray space. -/
def rowB10 : List Value :=
  [.str "DDD", .str "2016J", .num 5, .str "CMA", .num 23, .num 40]

/-- A table holding `rowA10` and `rowB10`. -/
def dfW10 : DataFrame :=
  ⟨exCols, [rowA10, rowB10]⟩

/-- The cleaned form of `dfW10`: two identical rows. -/
def dfW10Out : DataFrame :=
  ⟨exCols, [[.str "DDD", .str "2016J", .num 5, .str "CMA", .num 23, .num 40],
            [.str "DDD", .str "2016J", .num 5, .str "CMA", .num 23, .num 40]]⟩

/-! ### Basic lemmas: `modifyAt`, `colIdx`, deduplication, cells -/

theorem modifyAt_length {α : Type} (f : α → α) (i : Nat) (l : List α) :
    (modifyAt f i l).length = l.length := by
  induction l generalizing i with
  | nil => cases i <;> rfl
  | cons a as ih =>
    cases i with
    | zero => rfl
    | succ n => simp [modifyAt, ih]

theorem getElem?_modifyAt_self {α : Type} (f : α → α) (i : Nat) (l : List α) :
    (modifyAt f i l)[i]? = l[i]?.map f := by
  induction l generalizing i with
  | nil => simp [modifyAt]
  | cons a as ih =>
    cases i with
    | zero => simp [modifyAt]
    | succ n => simpa [modifyAt] using ih n

theorem getElem?_modifyAt_ne {α : Type} (f : α → α) {i j : Nat} (h : i ≠ j)
    (l : List α) : (modifyAt f i l)[j]? = l[j]? := by
  induction l generalizing i j with
  | nil => cases i <;> rfl
  | cons a as ih =>
    cases i with
    | zero =>
      cases j with
      | zero => exact absurd rfl h
      | succ m => simp [modifyAt]
    | succ n =>
      cases j with
      | zero => simp [modifyAt]
      | succ m =>
        simp only [modifyAt, List.getElem?_cons_succ]
        exact ih (fun hh => h (by rw [hh]))

theorem modifyAt_eq_self {α : Type} {f : α → α} {i : Nat} {l : List α}
    (h : ∀ v, l[i]? = some v → f v = v) : modifyAt f i l = l := by
  induction l generalizing i with
  | nil => cases i <;> rfl
  | cons a as ih =>
    cases i with
    | zero => simp only [modifyAt]; rw [h a (by simp)]
    | succ n =>
      simp only [modifyAt, List.cons.injEq, true_and]
      exact ih (fun v hv => h v (by simpa using hv))

theorem colIdx_getElem? {cols : List String} {c : String} {i : Nat}
    (h : colIdx cols c = some i) : cols[i]? = some c := by
  induction cols generalizing i with
  | nil => simp [colIdx] at h
  | cons c0 cs ih =>
    by_cases hc : c0 = c
    · simp only [colIdx, if_pos hc, Option.some.injEq] at h
      subst h; simpa using hc
    · simp only [colIdx, if_neg hc, Option.map_eq_some'] at h
      obtain ⟨j, hj, rfl⟩ := h
      simpa using ih hj

theorem colIdx_eq_none {cols : List String} {c : String} :
    colIdx cols c = none ↔ c ∉ cols := by
  induction cols with
  | nil => simp [colIdx]
  | cons c0 cs ih =>
    by_cases hc : c0 = c
    · subst hc; simp [colIdx]
    · simp [colIdx, hc, ih, Ne.symm hc]

theorem colIdx_ne {cols : List String} {c c' : String} {i j : Nat}
    (h1 : colIdx cols c = some i) (h2 : colIdx cols c' = some j)
    (hcc : c ≠ c') : i ≠ j := by
  intro hij
  subst hij
  have e1 := colIdx_getElem? h1
  have e2 := colIdx_getElem? h2
  rw [e1] at e2
  exact hcc (Option.some.inj e2)

theorem mem_dedupAux {α : Type} [DecidableEq α] {a : α} {seen l : List α} :
    a ∈ dedupAux seen l ↔ a ∈ l ∧ a ∉ seen := by
  induction l generalizing seen with
  | nil => simp [dedupAux]
  | cons b bs ih =>
    by_cases hb : b ∈ seen
    · simp only [dedupAux, if_pos hb, ih, List.mem_cons]
      constructor
      · rintro ⟨h1, h2⟩; exact ⟨Or.inr h1, h2⟩
      · rintro ⟨h1 | h1, h2⟩
        · exact absurd (h1 ▸ hb) h2
        · exact ⟨h1, h2⟩
    · simp only [dedupAux, if_neg hb]
      constructor
      · intro h
        rcases List.mem_cons.mp h with rfl | h
        · exact ⟨List.mem_cons_self _ _, hb⟩
        · obtain ⟨h1, h2⟩ := ih.mp h
          exact ⟨List.mem_cons_of_mem _ h1,
                 fun hs => h2 (List.mem_cons_of_mem _ hs)⟩
      · rintro ⟨h1, h2⟩
        by_cases hab : a = b
        · exact hab ▸ List.mem_cons_self _ _
        · rcases List.mem_cons.mp h1 with rfl | h1
          · exact absurd rfl hab
          · refine List.mem_cons_of_mem _ (ih.mpr ⟨h1, fun hm => ?_⟩)
            exact (List.mem_cons.mp hm).elim hab h2

theorem dedupAux_sublist {α : Type} [DecidableEq α] (seen l : List α) :
    List.Sublist (dedupAux seen l) l := by
  induction l generalizing seen with
  | nil => simp [dedupAux]
  | cons b bs ih =>
    by_cases hb : b ∈ seen
    · simp only [dedupAux, if_pos hb]
      exact (ih seen).trans (List.sublist_cons_self b bs)
    · simp only [dedupAux, if_neg hb]
      exact (ih (b :: seen)).cons₂ b

theorem dedupAux_nodup {α : Type} [DecidableEq α] (seen l : List α) :
    (dedupAux seen l).Nodup := by
  induction l generalizing seen with
  | nil => simp [dedupAux]
  | cons b bs ih =>
    by_cases hb : b ∈ seen
    · simpa [dedupAux, hb] using ih seen
    · simp only [dedupAux, if_neg hb, List.nodup_cons]
      exact ⟨fun hmem => (mem_dedupAux.mp hmem).2 (List.mem_cons_self b seen),
             ih (b :: seen)⟩

theorem dedupAux_eq_self {α : Type} [DecidableEq α] {seen l : List α}
    (hn : l.Nodup) (hs : ∀ a ∈ l, a ∉ seen) : dedupAux seen l = l := by
  induction l generalizing seen with
  | nil => rfl
  | cons b bs ih =>
    obtain ⟨hbbs, hnbs⟩ := List.nodup_cons.mp hn
    have hb : b ∉ seen := hs b (List.mem_cons_self b bs)
    simp only [dedupAux, if_neg hb, List.cons.injEq, true_and]
    refine ih hnbs (fun a ha => ?_)
    intro hmem
    rcases List.mem_cons.mp hmem with rfl | hmem
    · exact hbbs ha
    · exact hs a (List.mem_cons_of_mem b ha) hmem

theorem mem_dropDuplicates {α : Type} [DecidableEq α] {a : α} {l : List α} :
    a ∈ dropDuplicates l ↔ a ∈ l := by
  simp [dropDuplicates, mem_dedupAux]

theorem dropDuplicates_nodup {α : Type} [DecidableEq α] (l : List α) :
    (dropDuplicates l).Nodup :=
  dedupAux_nodup [] l

theorem dropDuplicates_sublist {α : Type} [DecidableEq α] (l : List α) :
    List.Sublist (dropDuplicates l) l :=
  dedupAux_sublist [] l

theorem dropDuplicates_eq_self {α : Type} [DecidableEq α] {l : List α}
    (h : l.Nodup) : dropDuplicates l = l :=
  dedupAux_eq_self h (by simp)

theorem isNumericB_toNumericCell (v : Value) :
    isNumericB (toNumericCell v) = true := by
  cases v with
  | str s =>
    simp only [toNumericCell]
    split <;> rfl
  | num q => rfl
  | null => rfl

theorem isNumericB_cleanDate (v : Value) : isNumericB (cleanDate v) = true := by
  unfold cleanDate
  exact isNumericB_toNumericCell _

theorem toNumericCell_of_numeric {v : Value} (h : isNumericB v = true) :
    toNumericCell v = v := by
  cases v with
  | str s => simp [isNumericB] at h
  | num q => rfl
  | null => rfl

theorem cleanDate_of_numeric {v : Value} (h : isNumericB v = true) :
    cleanDate v = v := by
  cases v with
  | str s => simp [isNumericB] at h
  | num q => rfl
  | null => rfl

/-! ### Idempotence of trimming -/

theorem trimChars_eq_rdrop (l : List Char) :
    trimChars l = (l.dropWhile isWS).rdropWhile isWS := rfl

theorem dropWhile_rdropWhile {α : Type} (p : α → Bool) (u : List α)
    (hu : u.dropWhile p = u) :
    (u.rdropWhile p).dropWhile p = u.rdropWhile p := by
  rw [List.dropWhile_eq_self_iff] at hu ⊢
  intro hl
  have hp : (u.rdropWhile p) <+: u := List.rdropWhile_prefix p u
  have hlen : 0 < u.length := lt_of_lt_of_le hl hp.length_le
  have h0 := hu hlen
  rw [List.get_eq_getElem] at h0 ⊢
  rwa [hp.getElem hl]

theorem trimChars_idem (l : List Char) : trimChars (trimChars l) = trimChars l := by
  rw [trimChars_eq_rdrop, trimChars_eq_rdrop]
  rw [dropWhile_rdropWhile isWS (l.dropWhile isWS) (List.dropWhile_idempotent _ _)]
  exact List.rdropWhile_idempotent _ _

theorem stripString_idem (s : String) :
    stripString (stripString s) = stripString s := by
  unfold stripString
  rw [show (String.mk (trimChars s.toList)).toList = trimChars s.toList from rfl,
      trimChars_idem]

theorem stripCell_idem (v : Value) : stripCell (stripCell v) = stripCell v := by
  cases v <;> simp [stripCell, stripString_idem]

/-! ### Characterizing the pipeline steps -/

theorem mapCol_eq_some {c : String} {f : Value → Value} {df df' : DataFrame} :
    mapCol c f df = some df' ↔
      ∃ i, colIdx df.cols c = some i ∧
        df' = ⟨df.cols, df.rows.map (modifyAt f i)⟩ := by
  unfold mapCol
  cases h : colIdx df.cols c with
  | none => simp [h]
  | some i => simp [h, eq_comm]

theorem renameMap_eq (c : String) : renameMap c = c := by
  unfold renameMap
  cases h : renameAssoc.find? (fun q => q.1 == c) with
  | none => rfl
  | some pr =>
    have h1 := List.find?_some h
    have h1' : pr.1 = c := by simpa using h1
    have h2 : pr ∈ renameAssoc := List.mem_of_find?_eq_some h
    have h3 : pr.1 = pr.2 := by
      fin_cases h2 <;> rfl
    show pr.2 = c
    rw [← h3]
    exact h1'

theorem renameStep_eq (df : DataFrame) : renameStep df = df := by
  unfold renameStep
  have hc : df.cols.map renameMap = df.cols := by
    conv_rhs => rw [← List.map_id df.cols]
    exact List.map_congr_left (fun a _ => renameMap_eq a)
  rw [hc]

/-! ### Row-level view of the text-standardization step -/

theorem getElem?_applyColRow (cols : List String) (c : String)
    (f : Value → Value) (r : List Value) (i : Nat) :
    (applyColRow cols c f r)[i]? =
      if colIdx cols c = some i then r[i]?.map f else r[i]? := by
  unfold applyColRow
  cases h : colIdx cols c with
  | none => simp [h]
  | some j =>
    by_cases hj : j = i
    · subst hj
      simp [getElem?_modifyAt_self]
    · rw [if_neg (by simp [hj]), getElem?_modifyAt_ne f hj]

theorem getElem?_rowStrip_ne (cols : List String) (r : List Value) (i : Nat)
    (hne : ∀ c ∈ textCols, colIdx cols c ≠ some i) :
    (rowStrip cols r)[i]? = r[i]? := by
  unfold rowStrip
  rw [getElem?_applyColRow, getElem?_applyColRow, getElem?_applyColRow,
      if_neg (hne "assessment_type" (by simp [textCols])),
      if_neg (hne "code_presentation" (by simp [textCols])),
      if_neg (hne "code_module" (by simp [textCols]))]

theorem getElem?_rowStrip_text (cols : List String) (r : List Value) (i : Nat)
    (c : String) (hc : c ∈ textCols) (hi : colIdx cols c = some i) :
    (rowStrip cols r)[i]? = r[i]?.map stripCell := by
  have hc' : c = "code_module" ∨ c = "code_presentation" ∨ c = "assessment_type" := by
    simpa [textCols] using hc
  unfold rowStrip
  rw [getElem?_applyColRow, getElem?_applyColRow, getElem?_applyColRow]
  rcases hc' with rfl | rfl | rfl
  · rw [if_neg (fun hh => colIdx_ne hi hh (by decide) rfl),
        if_neg (fun hh => colIdx_ne hi hh (by decide) rfl),
        if_pos hi]
  · rw [if_neg (fun hh => colIdx_ne hi hh (by decide) rfl),
        if_pos hi,
        if_neg (fun hh => colIdx_ne hi hh (by decide) rfl)]
  · rw [if_pos hi,
        if_neg (fun hh => colIdx_ne hi hh (by decide) rfl),
        if_neg (fun hh => colIdx_ne hi hh (by decide) rfl)]

theorem mapCol_isSome (c : String) (f : Value → Value) (df : DataFrame)
    (h : c ∈ df.cols) : ∃ df', mapCol c f df = some df' := by
  have h1 : colIdx df.cols c ≠ none := fun hn => (colIdx_eq_none.mp hn) h
  obtain ⟨i, hi⟩ := Option.ne_none_iff_exists'.mp h1
  exact ⟨_, by unfold mapCol; rw [hi]⟩

theorem stripColumn_parts {df df' : DataFrame} {c : String}
    (h : stripColumn df c = some df') :
    df'.cols = df.cols ∧
    df'.rows = df.rows.map (applyColRow df.cols c stripCell) ∧
    (∀ j, colIdx df.cols c = some j → colObjectOkB df.rows j = true) := by
  unfold stripColumn at h
  cases hc : colIdx df.cols c with
  | none =>
    simp only [hc] at h
    obtain rfl : df = df' := Option.some.inj h
    refine ⟨rfl, ?_, fun j hj => by simp at hj⟩
    have e : df.rows.map (applyColRow df.cols c stripCell) = df.rows.map id :=
      List.map_congr_left (fun r _ => by unfold applyColRow; rw [hc]; rfl)
    rw [e, List.map_id]
  | some i =>
    simp only [hc] at h
    by_cases hok : colObjectOkB df.rows i = true
    · rw [if_pos hok] at h
      obtain rfl := Option.some.inj h
      refine ⟨rfl, ?_, fun j hj => ?_⟩
      · exact List.map_congr_left
          (fun r _ => by unfold applyColRow; rw [hc])
      · obtain rfl := Option.some.inj hj
        exact hok
    · rw [if_neg hok] at h
      exact absurd h (by simp)

theorem colCells_map_of_getElem_eq (g : List Value → List Value)
    (rows : List (List Value)) (i : Nat)
    (hpt : ∀ r, (g r)[i]? = r[i]?) :
    colCells (rows.map g) i = colCells rows i := by
  unfold colCells
  rw [List.filterMap_map]
  exact List.filterMap_congr (fun r _ => hpt r)

theorem colCells_map_of_getElem_strip (g : List Value → List Value)
    (rows : List (List Value)) (i : Nat)
    (hpt : ∀ r, (g r)[i]? = (r[i]?).map stripCell) :
    colCells (rows.map g) i = (colCells rows i).map stripCell := by
  unfold colCells
  rw [List.filterMap_map]
  induction rows with
  | nil => rfl
  | cons r rs ih =>
    rw [List.filterMap_cons, List.filterMap_cons]
    cases hv : r[i]? with
    | none => simpa [Function.comp, hpt, hv] using ih
    | some v => simpa [Function.comp, hpt, hv] using ih

theorem okB_congr {rows1 rows2 : List (List Value)} {j : Nat}
    (h : colCells rows2 j = colCells rows1 j) :
    colObjectOkB rows2 j = colObjectOkB rows1 j := by
  unfold colObjectOkB
  rw [h]

theorem isStrB_stripCell (v : Value) : isStrB (stripCell v) = isStrB v := by
  cases v <;> rfl

theorem okB_of_strip {rows1 rows2 : List (List Value)} {j : Nat}
    (h : colCells rows2 j = (colCells rows1 j).map stripCell)
    (hok : colObjectOkB rows1 j = true) :
    colObjectOkB rows2 j = true := by
  unfold colObjectOkB at hok ⊢
  rw [h]
  have e1 : ((colCells rows1 j).map stripCell).isEmpty =
      (colCells rows1 j).isEmpty := by
    cases colCells rows1 j <;> rfl
  have e2 : ((colCells rows1 j).map stripCell).any isStrB =
      (colCells rows1 j).any isStrB := by
    rw [List.any_map]
    have e3 : isStrB ∘ stripCell = isStrB := funext isStrB_stripCell
    rw [e3]
  rw [e1, e2]
  exact hok

theorem colCells_map_applyColRow_ne (cols : List String) (c : String)
    (f : Value → Value) (rows : List (List Value)) (j : Nat)
    (hne : colIdx cols c ≠ some j) :
    colCells (rows.map (applyColRow cols c f)) j = colCells rows j :=
  colCells_map_of_getElem_eq _ _ _ (fun r => by
    rw [getElem?_applyColRow, if_neg hne])

theorem step3_parts {d d' : DataFrame} (h : step3 d = some d') :
    (d'.cols = d.cols ∧ d'.rows = d.rows.map (rowStrip d.cols)) ∧
    ∀ c ∈ textCols, ∀ j, colIdx d.cols c = some j →
      colObjectOkB d.rows j = true := by
  unfold step3 at h
  rw [Option.bind_eq_some] at h
  obtain ⟨dA, hA, h⟩ := h
  rw [Option.bind_eq_some] at h
  obtain ⟨dB, hB, hC⟩ := h
  obtain ⟨hAc, hAr, hAok⟩ := stripColumn_parts hA
  obtain ⟨hBc, hBr, hBok⟩ := stripColumn_parts hB
  obtain ⟨hCc, hCr, hCok⟩ := stripColumn_parts hC
  have hBc' : dB.cols = d.cols := by rw [hBc, hAc]
  have hCc' : d'.cols = d.cols := by rw [hCc, hBc']
  constructor
  · refine ⟨hCc', ?_⟩
    rw [hCr, hBc', hBr, hAc, hAr, List.map_map, List.map_map]
    apply List.map_congr_left
    intro r _
    simp [Function.comp, rowStrip]
  · intro c hc j hj
    have hc3 : c = "code_module" ∨ c = "code_presentation" ∨
        c = "assessment_type" := by simpa [textCols] using hc
    rcases hc3 with rfl | rfl | rfl
    · exact hAok j hj
    · have hok := hBok j (by rw [hAc]; exact hj)
      have hcells : colCells dA.rows j = colCells d.rows j := by
        rw [hAr]
        exact colCells_map_applyColRow_ne _ _ _ _ _
          (fun hcontra => colIdx_ne hj hcontra (by decide) rfl)
      rw [okB_congr hcells] at hok
      exact hok
    · have hok := hCok j (by rw [hBc']; exact hj)
      have hcells1 : colCells dB.rows j = colCells dA.rows j := by
        rw [hBr, hAc]
        exact colCells_map_applyColRow_ne _ _ _ _ _
          (fun hcontra => colIdx_ne hj hcontra (by decide) rfl)
      have hcells2 : colCells dA.rows j = colCells d.rows j := by
        rw [hAr]
        exact colCells_map_applyColRow_ne _ _ _ _ _
          (fun hcontra => colIdx_ne hj hcontra (by decide) rfl)
      rw [okB_congr hcells1, okB_congr hcells2] at hok
      exact hok

theorem clean_some_parts {df y : DataFrame} (h : clean df = some y) :
    ∃ dI wI, colIdx df.cols "date" = some dI ∧
      colIdx df.cols "weight" = some wI ∧
      y = ⟨df.cols,
            ((dropDuplicates (df.rows.map (modifyAt cleanDate dI))).map
                (rowStrip df.cols)).map (modifyAt toNumericCell wI)⟩ ∧
      ∀ c ∈ textCols, ∀ j, colIdx df.cols c = some j →
        colObjectOkB (dropDuplicates (df.rows.map (modifyAt cleanDate dI)))
          j = true := by
  unfold clean at h
  cases h1 : step1 df with
  | none =>
    rw [h1] at h
    exact absurd h (by simp)
  | some d1 =>
    simp only [h1] at h
    cases h3 : step3 (step2 d1) with
    | none =>
      simp only [h3] at h
      exact absurd h (by simp)
    | some d3 =>
      simp only [h3] at h
      rw [renameStep_eq] at h
      unfold step1 at h1
      obtain ⟨dI, hd, rfl⟩ := mapCol_eq_some.mp h1
      obtain ⟨⟨h3c, h3r⟩, h3ok⟩ := step3_parts h3
      unfold step6 at h
      obtain ⟨wI, hw, rfl⟩ := mapCol_eq_some.mp h
      refine ⟨dI, wI, hd, ?_, ?_, ?_⟩
      · rw [h3c] at hw
        exact hw
      · rw [h3c, h3r]
        rfl
      · intro c hc j hj
        exact h3ok c hc j hj

/-! ### The cell invariant established by one pipeline pass -/

theorem colAll_iff {df : DataFrame} {c : String} {p : Value → Bool} :
    colAll df c p = true ↔
      ∀ i, colIdx df.cols c = some i →
        ∀ r ∈ df.rows, ∀ v, r[i]? = some v → p v = true := by
  unfold colAll
  cases h : colIdx df.cols c with
  | none => simp
  | some i =>
    rw [List.all_eq_true]
    constructor
    · intro H j hj r hr v hv
      obtain rfl : i = j := Option.some.inj hj
      have := H r hr
      rw [hv] at this
      simpa using this
    · intro H r hr
      cases hv : r[i]? with
      | none => simp
      | some v => simpa using H i rfl r hr v hv

theorem clean_state {df y : DataFrame} (h : clean df = some y) :
    y.cols = df.cols ∧
    colAll y "date" isNumericB = true ∧
    colAll y "weight" isNumericB = true ∧
    ∀ c ∈ textCols, colAll y c (fun v => decide (stripCell v = v)) = true := by
  obtain ⟨dI, wI, hd, hw, rfl, -⟩ := clean_some_parts h
  have hdw : dI ≠ wI := colIdx_ne hd hw (by decide)
  refine ⟨rfl, ?_, ?_, ?_⟩
  · rw [colAll_iff]
    intro i hi r hr v hv
    obtain rfl : dI = i := by
      rw [hd] at hi
      exact Option.some.inj hi
    obtain ⟨r1, hr1, rfl⟩ := List.mem_map.mp hr
    obtain ⟨r2, hr2, rfl⟩ := List.mem_map.mp hr1
    have hr3 : r2 ∈ df.rows.map (modifyAt cleanDate dI) := mem_dropDuplicates.mp hr2
    obtain ⟨r0, hr0, rfl⟩ := List.mem_map.mp hr3
    rw [getElem?_modifyAt_ne _ (Ne.symm hdw),
        getElem?_rowStrip_ne _ _ _
          (by
            intro c hc
            fin_cases hc <;>
              exact fun hcontra => colIdx_ne hd hcontra (by decide) rfl),
        getElem?_modifyAt_self] at hv
    obtain ⟨v0, hv0, rfl⟩ := Option.map_eq_some'.mp hv
    exact isNumericB_cleanDate v0
  · rw [colAll_iff]
    intro i hi r hr v hv
    obtain rfl : wI = i := by
      rw [hw] at hi
      exact Option.some.inj hi
    obtain ⟨r1, hr1, rfl⟩ := List.mem_map.mp hr
    rw [getElem?_modifyAt_self] at hv
    obtain ⟨v0, hv0, rfl⟩ := Option.map_eq_some'.mp hv
    exact isNumericB_toNumericCell v0
  · intro c hc
    rw [colAll_iff]
    intro i hi r hr v hv
    have hc' : c = "code_module" ∨ c = "code_presentation" ∨ c = "assessment_type" := by
      simpa [textCols] using hc
    have hcw : c ≠ "weight" := by rcases hc' with rfl | rfl | rfl <;> decide
    obtain ⟨r1, hr1, rfl⟩ := List.mem_map.mp hr
    obtain ⟨r2, hr2, rfl⟩ := List.mem_map.mp hr1
    rw [getElem?_modifyAt_ne _ (Ne.symm (colIdx_ne hi hw hcw)),
        getElem?_rowStrip_text _ _ _ c hc hi] at hv
    obtain ⟨v0, hv0, rfl⟩ := Option.map_eq_some'.mp hv
    simp [stripCell_idem]

/-! ### A second pass is the identity on a duplicate-free cleaned table -/

theorem clean_fixpoint {df y : DataFrame} (h : clean df = some y)
    (hnd : y.rows.Nodup) : clean y = some y := by
  obtain ⟨hcols, hdat, hwt, htext⟩ := clean_state h
  obtain ⟨dI, wI, hd, hw, hy, hok⟩ := clean_some_parts h
  have hd' : colIdx y.cols "date" = some dI := by rw [hcols]; exact hd
  have hw' : colIdx y.cols "weight" = some wI := by rw [hcols]; exact hw
  have hyrows : y.rows =
      ((dropDuplicates (df.rows.map (modifyAt cleanDate dI))).map
        (rowStrip df.cols)).map (modifyAt toNumericCell wI) := by rw [hy]
  have e1 : y.rows.map (modifyAt cleanDate dI) = y.rows := by
    have hmod : ∀ r ∈ y.rows, modifyAt cleanDate dI r = id r := by
      intro r hr
      apply modifyAt_eq_self
      intro v hv
      exact cleanDate_of_numeric ((colAll_iff.mp hdat) dI hd' r hr v hv)
    rw [List.map_congr_left hmod, List.map_id]
  have e4 : y.rows.map (modifyAt toNumericCell wI) = y.rows := by
    have hmod : ∀ r ∈ y.rows, modifyAt toNumericCell wI r = id r := by
      intro r hr
      apply modifyAt_eq_self
      intro v hv
      exact toNumericCell_of_numeric ((colAll_iff.mp hwt) wI hw' r hr v hv)
    rw [List.map_congr_left hmod, List.map_id]
  have hs1 : step1 y = some y := by
    unfold step1 mapCol
    rw [hd']
    show some ⟨y.cols, y.rows.map (modifyAt cleanDate dI)⟩ = some y
    rw [e1]
  have hs2 : step2 y = y := by
    unfold step2
    rw [dropDuplicates_eq_self hnd]
  have hstripId : ∀ c ∈ textCols, stripColumn y c = some y := by
    intro c hc
    have hc3 : c = "code_module" ∨ c = "code_presentation" ∨
        c = "assessment_type" := by simpa [textCols] using hc
    have hcw : c ≠ "weight" := by rcases hc3 with rfl | rfl | rfl <;> decide
    unfold stripColumn
    cases hj : colIdx y.cols c with
    | none => rfl
    | some j =>
      show (if colObjectOkB y.rows j = true then
              some ⟨y.cols, y.rows.map (modifyAt stripCell j)⟩
            else none) = some y
      have hj' : colIdx df.cols c = some j := by rw [← hcols]; exact hj
      have hwj : wI ≠ j := Ne.symm (colIdx_ne hj' hw hcw)
      have hA : colCells y.rows j =
          colCells ((dropDuplicates (df.rows.map (modifyAt cleanDate dI))).map
            (rowStrip df.cols)) j := by
        rw [hyrows]
        exact colCells_map_of_getElem_eq _ _ _
          (fun r => getElem?_modifyAt_ne _ hwj r)
      have hB : colCells
            ((dropDuplicates (df.rows.map (modifyAt cleanDate dI))).map
              (rowStrip df.cols)) j =
          (colCells (dropDuplicates (df.rows.map (modifyAt cleanDate dI)))
            j).map stripCell :=
        colCells_map_of_getElem_strip _ _ _
          (fun r => getElem?_rowStrip_text df.cols r j c hc hj')
      have hokj : colObjectOkB y.rows j = true :=
        okB_of_strip (by rw [hA, hB]) (hok c hc j hj')
      rw [if_pos hokj]
      have hmapid : y.rows.map (modifyAt stripCell j) = y.rows := by
        have hmod : ∀ r ∈ y.rows, modifyAt stripCell j r = id r := by
          intro r hr
          apply modifyAt_eq_self
          intro v hv
          exact of_decide_eq_true
            ((colAll_iff.mp (htext c hc)) j hj r hr v hv)
        rw [List.map_congr_left hmod, List.map_id]
      rw [hmapid]
  have hs3 : step3 y = some y := by
    unfold step3
    rw [hstripId "code_module" (by simp [textCols])]
    show ((stripColumn y "code_presentation").bind
      (fun d2 => stripColumn d2 "assessment_type")) = some y
    rw [hstripId "code_presentation" (by simp [textCols])]
    show stripColumn y "assessment_type" = some y
    exact hstripId "assessment_type" (by simp [textCols])
  have hs6 : step6 y = some y := by
    unfold step6 mapCol
    rw [hw']
    show some ⟨y.cols, y.rows.map (modifyAt toNumericCell wI)⟩ = some y
    rw [e4]
  unfold clean
  rw [hs1]
  show (match step3 (step2 y) with
        | none => none
        | some d3 => step6 (renameStep d3)) = some y
  rw [hs2, hs3]
  show step6 (renameStep y) = some y
  rw [renameStep_eq]
  exact hs6

/-! ### Deduplication agrees with the spec's formulation -/

theorem specDedup_nil {α : Type} [DecidableEq α] : specDedup ([] : List α) = [] := by
  rw [specDedup]

theorem specDedup_cons {α : Type} [DecidableEq α] (a : α) (as : List α) :
    specDedup (a :: as) = a :: specDedup (as.filter (fun b => !(decide (b = a)))) := by
  rw [specDedup]

theorem dedupAux_eq_specDedup {α : Type} [DecidableEq α] (seen l : List α) :
    dedupAux seen l = specDedup (l.filter (fun b => !(decide (b ∈ seen)))) := by
  induction l generalizing seen with
  | nil => rw [List.filter_nil, specDedup_nil]; rfl
  | cons b bs ih =>
    by_cases hb : b ∈ seen
    · rw [show dedupAux seen (b :: bs) = dedupAux seen bs by
            simp [dedupAux, hb],
          ih seen]
      congr 1
      rw [List.filter_cons]
      simp [hb]
    · rw [show dedupAux seen (b :: bs) = b :: dedupAux (b :: seen) bs by
            simp [dedupAux, hb],
          ih (b :: seen)]
      rw [List.filter_cons]
      simp only [hb, decide_False, Bool.not_false, if_true]
      rw [specDedup_cons]
      congr 1
      rw [List.filter_filter]
      congr 1
      apply List.filter_congr
      intro a _
      by_cases h1 : a = b <;> by_cases h2 : a ∈ seen <;>
        simp [h1, h2, List.mem_cons]

theorem dropDuplicates_eq_specDedup {α : Type} [DecidableEq α] (l : List α) :
    dropDuplicates l = specDedup l := by
  rw [dropDuplicates, dedupAux_eq_specDedup]
  congr 1
  simp

/-! ### Rows differing only by text-column whitespace -/

theorem isTextIdxB_iff {cols : List String} {i : Nat} :
    isTextIdxB cols i = true ↔ ∃ c ∈ textCols, colIdx cols c = some i := by
  simp [isTextIdxB, List.any_eq_true]

theorem wsEquivCellB_eq_true {o1 o2 : Option Value} :
    wsEquivCellB o1 o2 = true ↔
      ∃ s1 s2, o1 = some (Value.str s1) ∧ o2 = some (Value.str s2) ∧
        stripString s1 = stripString s2 := by
  cases o1 with
  | none => simp [wsEquivCellB]
  | some v1 =>
    cases o2 with
    | none => cases v1 <;> simp [wsEquivCellB]
    | some v2 => cases v1 <;> cases v2 <;> simp [wsEquivCellB]

theorem ws_pair_survives_and_collapses {df y : DataFrame} {r1 r2 : List Value}
    (h : clean df = some y) (h1 : r1 ∈ df.rows) (h2 : r2 ∈ df.rows)
    (hws : differOnlyByTextWS df.cols r1 r2 = true) :
    ∃ d1, step1 df = some d1 ∧
      ∃ r1' r2', r1' ∈ (step2 d1).rows ∧ r2' ∈ (step2 d1).rows ∧ r1' ≠ r2' ∧
        ∃ (i j : Nat) (r : List Value),
          i ≠ j ∧ y.rows[i]? = some r ∧ y.rows[j]? = some r := by
  obtain ⟨dI, wI, hdc, hwc, hy, -⟩ := clean_some_parts h
  subst hy
  unfold differOnlyByTextWS at hws
  simp only [Bool.and_eq_true, decide_eq_true_eq, List.all_eq_true,
    List.mem_range] at hws
  obtain ⟨⟨hne, hlen⟩, hcells⟩ := hws
  have hcellT : ∀ i, isTextIdxB df.cols i = true → i < r1.length →
      ∃ s1 s2, r1[i]? = some (Value.str s1) ∧ r2[i]? = some (Value.str s2) ∧
        stripString s1 = stripString s2 := by
    intro i ht hi
    have hb := hcells i hi
    rw [if_pos ht] at hb
    exact wsEquivCellB_eq_true.mp hb
  have hcellN : ∀ i, isTextIdxB df.cols i = false → r1[i]? = r2[i]? := by
    intro i ht
    by_cases hi : i < r1.length
    · have hb := hcells i hi
      rw [if_neg (by simp [ht])] at hb
      exact of_decide_eq_true hb
    · push_neg at hi
      rw [List.getElem?_eq_none_iff.mpr hi,
          List.getElem?_eq_none_iff.mpr (hlen ▸ hi)]
  have hdnt : isTextIdxB df.cols dI = false := by
    by_contra hcontra
    rw [Bool.not_eq_false] at hcontra
    obtain ⟨c, hc, hci⟩ := isTextIdxB_iff.mp hcontra
    have hcd : c ≠ "date" := by fin_cases hc <;> decide
    exact colIdx_ne hci hdc hcd rfl
  have hs1 : step1 df = some ⟨df.cols, df.rows.map (modifyAt cleanDate dI)⟩ := by
    unfold step1 mapCol
    rw [hdc]
  refine ⟨_, hs1, modifyAt cleanDate dI r1, modifyAt cleanDate dI r2,
    mem_dropDuplicates.mpr (List.mem_map_of_mem _ h1),
    mem_dropDuplicates.mpr (List.mem_map_of_mem _ h2), ?_, ?_⟩
  · -- the two images are still distinct after the date step
    obtain ⟨k, hk⟩ : ∃ k, r1[k]? ≠ r2[k]? := by
      by_contra hcon
      push_neg at hcon
      exact hne (List.ext_getElem? hcon)
    have hkt : isTextIdxB df.cols k = true := by
      cases hkt : isTextIdxB df.cols k
      · exact absurd (hcellN k hkt) hk
      · rfl
    have hkdI : dI ≠ k := by
      intro he
      rw [← he, hdnt] at hkt
      exact Bool.false_ne_true hkt
    intro he
    apply hk
    have hcg := congrArg (fun l => l[k]?) he
    simpa [getElem?_modifyAt_ne _ hkdI] using hcg
  · -- after trimming, both rows have become the same row of the output
    have hstrip : rowStrip df.cols (modifyAt cleanDate dI r1) =
        rowStrip df.cols (modifyAt cleanDate dI r2) := by
      apply List.ext_getElem?
      intro i
      by_cases ht : isTextIdxB df.cols i = true
      · obtain ⟨c, hc, hci⟩ := isTextIdxB_iff.mp ht
        have hidI : dI ≠ i := by
          intro he
          rw [← he, hdnt] at ht
          exact Bool.false_ne_true ht
        rw [getElem?_rowStrip_text _ _ _ c hc hci,
            getElem?_rowStrip_text _ _ _ c hc hci,
            getElem?_modifyAt_ne _ hidI, getElem?_modifyAt_ne _ hidI]
        by_cases hi : i < r1.length
        · obtain ⟨s1, s2, e1, e2, hss⟩ := hcellT i ht hi
          rw [e1, e2]
          simp only [Option.map_some']
          rw [show stripCell (Value.str s1) = Value.str (stripString s1) from rfl,
              show stripCell (Value.str s2) = Value.str (stripString s2) from rfl,
              hss]
        · push_neg at hi
          rw [List.getElem?_eq_none_iff.mpr hi,
              List.getElem?_eq_none_iff.mpr (hlen ▸ hi)]
      · have ht' : isTextIdxB df.cols i = false := by
          cases hb : isTextIdxB df.cols i
          · rfl
          · exact absurd hb ht
        have hnotex : ∀ c ∈ textCols, colIdx df.cols c ≠ some i :=
          fun c hc hci => ht (isTextIdxB_iff.mpr ⟨c, hc, hci⟩)
        rw [getElem?_rowStrip_ne _ _ _ hnotex, getElem?_rowStrip_ne _ _ _ hnotex]
        by_cases hidI : i = dI
        · subst hidI
          rw [getElem?_modifyAt_self, getElem?_modifyAt_self, hcellN i ht']
        · rw [getElem?_modifyAt_ne _ (fun he => hidI he.symm),
              getElem?_modifyAt_ne _ (fun he => hidI he.symm)]
          exact hcellN i ht'
    obtain ⟨n1, hn1⟩ := List.getElem?_of_mem
      (mem_dropDuplicates.mpr
        (List.mem_map_of_mem (modifyAt cleanDate dI) h1) :
        modifyAt cleanDate dI r1 ∈
          dropDuplicates (df.rows.map (modifyAt cleanDate dI)))
    obtain ⟨n2, hn2⟩ := List.getElem?_of_mem
      (mem_dropDuplicates.mpr
        (List.mem_map_of_mem (modifyAt cleanDate dI) h2) :
        modifyAt cleanDate dI r2 ∈
          dropDuplicates (df.rows.map (modifyAt cleanDate dI)))
    have hnn : n1 ≠ n2 := by
      intro he
      rw [he, hn2] at hn1
      have heq := Option.some.inj hn1
      -- the two images are distinct: reuse the argument at index level
      obtain ⟨k, hk⟩ : ∃ k, r1[k]? ≠ r2[k]? := by
        by_contra hcon
        push_neg at hcon
        exact hne (List.ext_getElem? hcon)
      have hkt : isTextIdxB df.cols k = true := by
        cases hkt : isTextIdxB df.cols k
        · exact absurd (hcellN k hkt) hk
        · rfl
      have hkdI : dI ≠ k := by
        intro he'
        rw [← he', hdnt] at hkt
        exact Bool.false_ne_true hkt
      apply hk
      have hcg := congrArg (fun l => l[k]?) heq.symm
      simpa [getElem?_modifyAt_ne _ hkdI] using hcg
    refine ⟨n1, n2,
      modifyAt toNumericCell wI (rowStrip df.cols (modifyAt cleanDate dI r1)),
      hnn, ?_, ?_⟩
    · show (((dropDuplicates (df.rows.map (modifyAt cleanDate dI))).map
          (rowStrip df.cols)).map (modifyAt toNumericCell wI))[n1]? = _
      rw [List.getElem?_map, List.getElem?_map, hn1]
      rfl
    · show (((dropDuplicates (df.rows.map (modifyAt cleanDate dI))).map
          (rowStrip df.cols)).map (modifyAt toNumericCell wI))[n2]? = _
      rw [List.getElem?_map, List.getElem?_map, hn2]
      simp only [Option.map_some']
      rw [← hstrip]

/-! ### The claims -/

/-- C1 (counterexample): the claim fails as stated — on `dfDupWS`, whose two
rows differ only by a trailing space in `assessment_type`, the pipeline
completes and the written table contains two rows that are identical across
every column, because deduplication ran before trimming. -/
theorem c1_counterexample :
    clean dfDupWS = some dfDupWSOut ∧ ¬ dfDupWSOut.rows.Nodup := by
  constructor
  · decide
  · decide

/-- C1 (amended): the table produced by the duplicate-removal step itself
contains no two rows that are identical across every column; the final
output can regain exact duplicates only through the later trimming step. -/
theorem c1_nodup_after_dedup (df : DataFrame) : (step2 df).rows.Nodup :=
  dropDuplicates_nodup df.rows

/-- C2 (counterexample): the pipeline is not idempotent — on `dfTwice` the
first pass outputs two identical rows (trimming merged them after
deduplication), and a second pass over that output removes one of them,
yielding a different table. -/
theorem c2_counterexample :
    clean dfTwice = some dfTwiceOut1 ∧ clean dfTwiceOut1 = some dfTwiceOut2 ∧
    dfTwiceOut2 ≠ dfTwiceOut1 := by
  refine ⟨by decide, by decide, by decide⟩

/-- C2 (amended): the pipeline is idempotent on every input whose first
output is duplicate-free; a second pass can differ from the first only by
removing exact duplicates that trimming re-introduced, never by further
trimming or further numeric coercion. -/
theorem c2_idempotent_of_nodup (df y : DataFrame) (h : clean df = some y)
    (hnd : y.rows.Nodup) : clean y = some y :=
  clean_fixpoint h hnd

/-- Witness for C2: a concrete input with duplicate-free output, on which a
second pass reproduces the first output exactly. -/
theorem c2_witness : clean dfW2Out = some dfW2Out :=
  c2_idempotent_of_nodup dfW2 dfW2Out (by decide) (by decide)

/-- C3: in every completed output, all `date` and `weight` cells are numeric
or null; an empty `date` string becomes null; any unparsable string in
either column becomes null; and parse failures never abort a run — the two
numeric-coercion steps complete on every table that has their column (a run
can only abort on a missing column or on the text-standardization dtype
error, never on a parse failure). -/
theorem c3_numeric_or_null (df y : DataFrame) (h : clean df = some y) :
    colAll y "date" isNumericB = true ∧
    colAll y "weight" isNumericB = true ∧
    cleanDate (Value.str "") = Value.null ∧
    (∀ s, parseRat (trimChars s.toList) = none →
      cleanDate (Value.str s) = Value.null ∧
      toNumericCell (Value.str s) = Value.null) ∧
    (∀ df' : DataFrame, "date" ∈ df'.cols → ∃ d', step1 df' = some d') ∧
    (∀ df' : DataFrame, "weight" ∈ df'.cols → ∃ d', step6 df' = some d') := by
  obtain ⟨_, hdat, hwt, _⟩ := clean_state h
  refine ⟨hdat, hwt, rfl, ?_, fun df' hd => mapCol_isSome _ _ _ hd,
    fun df' hw => mapCol_isSome _ _ _ hw⟩
  intro s hs
  constructor
  · unfold cleanDate replaceEmptyCell
    by_cases hse : s = ""
    · subst hse
      rfl
    · simp only [if_neg hse]
      show (match parseRat (trimChars s.toList) with
            | some q => Value.num q
            | none => Value.null) = Value.null
      rw [hs]
  · show (match parseRat (trimChars s.toList) with
          | some q => Value.num q
          | none => Value.null) = Value.null
    rw [hs]

/-- Witness for C3, at a concrete input whose `date` is the empty string and
whose `weight` is the unparsable string `"abc"`. -/
theorem c3_witness :
    colAll dfW3Out "date" isNumericB = true ∧
    colAll dfW3Out "weight" isNumericB = true ∧
    cleanDate (Value.str "") = Value.null ∧
    (∀ s, parseRat (trimChars s.toList) = none →
      cleanDate (Value.str s) = Value.null ∧
      toNumericCell (Value.str s) = Value.null) ∧
    (∀ df' : DataFrame, "date" ∈ df'.cols → ∃ d', step1 df' = some d') ∧
    (∀ df' : DataFrame, "weight" ∈ df'.cols → ∃ d', step6 df' = some d') :=
  c3_numeric_or_null dfW3 dfW3Out (by decide)

/-- C4: every completed run factors as the strict sequence date
normalization/coercion (`step1`), duplicate removal (`step2`), whitespace
trimming of the three text columns (`step3`), and `weight` coercion
(`step6`), each step a fully materialized table before the next; the
intervening rename step of the script is the identity. -/
theorem c4_pipeline_order (df y : DataFrame) (h : clean df = some y) :
    ∃ d1 d2 d3, step1 df = some d1 ∧ d2 = step2 d1 ∧ step3 d2 = some d3 ∧
      renameStep d3 = d3 ∧ step6 d3 = some y := by
  unfold clean at h
  cases h1 : step1 df with
  | none =>
    rw [h1] at h
    exact absurd h (by simp)
  | some d1 =>
    simp only [h1] at h
    cases h3 : step3 (step2 d1) with
    | none =>
      simp only [h3] at h
      exact absurd h (by simp)
    | some d3 =>
      simp only [h3] at h
      exact ⟨d1, step2 d1, d3, rfl, rfl, h3, renameStep_eq _,
        by rwa [renameStep_eq] at h⟩

/-- Witness for C4 at a concrete input. -/
theorem c4_witness :
    ∃ d1 d2 d3, step1 dfW4 = some d1 ∧ d2 = step2 d1 ∧ step3 d2 = some d3 ∧
      renameStep d3 = d3 ∧ step6 d3 = some dfW4Out :=
  c4_pipeline_order dfW4 dfW4Out (by decide)

/-- C5: the duplicate-removal step computes exactly the spec's description —
remove all but the first occurrence of each distinct row — and its result
is a sublist of the input rows, so surviving rows keep their original
relative order. -/
theorem c5_dedup_first_occurrence (df : DataFrame) :
    (step2 df).rows = specDedup df.rows ∧
    List.Sublist (step2 df).rows df.rows :=
  ⟨dropDuplicates_eq_specDedup df.rows, dropDuplicates_sublist df.rows⟩

/-- C6: each run either aborts having written nothing, or completes and
writes both output files — the cleaned CSV and the README; every fallible
operation of the script precedes the first write. -/
theorem c6_all_or_nothing (input : DataFrame) :
    (clean input = none ∧ run input = []) ∨
    (∃ y, clean input = some y ∧
      run input = [OutEvent.csv y, OutEvent.readme readmeText]) := by
  unfold run
  cases h : clean input with
  | none => exact Or.inl ⟨rfl, rfl⟩
  | some y => exact Or.inr ⟨y, rfl, rfl⟩

/-- C7: on an input whose header lacks `date`, the pipeline aborts (the
`df['date']` access fails) and no output file is written. -/
theorem c7_missing_date_aborts (input : DataFrame)
    (h : "date" ∉ input.cols) : clean input = none ∧ run input = [] := by
  have h1 : colIdx input.cols "date" = none := colIdx_eq_none.mpr h
  have h2 : clean input = none := by
    unfold clean step1 mapCol
    rw [h1]
  refine ⟨h2, ?_⟩
  unfold run
  rw [h2]

/-- Witness for C7 at a concrete headerless-in-`date` input. -/
theorem c7_witness :
    "date" ∉ dfNoDate.cols ∧ clean dfNoDate = none ∧ run dfNoDate = [] :=
  ⟨by decide, c7_missing_date_aborts dfNoDate (by decide)⟩

/-- C8: the writer emits the cleaned table as a header row followed by the
data rows, cell for cell with no row-index column, with the column order
unchanged from the input; and it writes the README as a fixed heading plus
the static summary, the same content for every input. -/
theorem c8_writer (input y : DataFrame) (h : clean input = some y) :
    y.cols = input.cols ∧
    writtenCsv y = y.cols :: y.rows.map (fun r => r.map printCell) ∧
    run input = [OutEvent.csv y, OutEvent.readme readmeText] ∧
    readmeText = "# Data Cleaning Task 1 - Assessments Dataset\n\n" ++ summaryText := by
  refine ⟨(clean_state h).1, rfl, ?_, rfl⟩
  unfold run
  rw [h]

/-- Witness for C8 at a concrete input. -/
theorem c8_witness :
    dfW8Out.cols = dfW8.cols ∧
    writtenCsv dfW8Out = dfW8Out.cols :: dfW8Out.rows.map (fun r => r.map printCell) ∧
    run dfW8 = [OutEvent.csv dfW8Out, OutEvent.readme readmeText] ∧
    readmeText = "# Data Cleaning Task 1 - Assessments Dataset\n\n" ++ summaryText :=
  c8_writer dfW8 dfW8Out (by decide)

/-- C9: during text standardization, for every column shape that
`pd.read_csv` can produce (`loadableColB`: never a string and a number in
one column), a non-string value in a text column leads to one of exactly
the two claimed outcomes: either the trim operation raises on the whole
column (`.str.strip()` on a non-object column, aborting the run), or the
operation completes and every non-string cell (NaN in a string-bearing
object column) is left exactly in place. -/
theorem c9_nonstring_untouched_or_error (df : DataFrame) (c : String)
    (i : Nat) (_hc : c ∈ textCols) (hi : colIdx df.cols c = some i)
    (hload : loadableColB (colCells df.rows i) = true) :
    stripColumn df c = none ∨
      ∃ df', stripColumn df c = some df' ∧ df'.cols = df.cols ∧
        ∀ (k : Nat) (r : List Value), df.rows[k]? = some r →
          ∀ v, r[i]? = some v → isNumericB v = true →
            ∃ r', df'.rows[k]? = some r' ∧ r'[i]? = some v := by
  by_cases hok : colObjectOkB df.rows i = true
  · right
    refine ⟨DataFrame.mk df.cols (df.rows.map (modifyAt stripCell i)),
      ?_, rfl, ?_⟩
    · unfold stripColumn
      rw [hi]
      show (if colObjectOkB df.rows i = true then
              some (DataFrame.mk df.cols (df.rows.map (modifyAt stripCell i)))
            else none) =
        some (DataFrame.mk df.cols (df.rows.map (modifyAt stripCell i)))
      rw [if_pos hok]
    · intro k r hk v hv hnum
      refine ⟨modifyAt stripCell i r, ?_, ?_⟩
      · show (df.rows.map (modifyAt stripCell i))[k]? = _
        rw [List.getElem?_map, hk]
        rfl
      · rw [getElem?_modifyAt_self, hv]
        cases v with
        | str s => simp [isNumericB] at hnum
        | num q =>
          exfalso
          have hvmem : Value.num q ∈ colCells df.rows i := by
            unfold colCells
            rw [List.mem_filterMap]
            exact ⟨r, List.getElem?_mem hk, hv⟩
          have hanyN : (colCells df.rows i).any isNumB = true := by
            rw [List.any_eq_true]
            exact ⟨_, hvmem, rfl⟩
          have hanyS : (colCells df.rows i).any isStrB = false := by
            cases hS : (colCells df.rows i).any isStrB
            · rfl
            · exfalso
              unfold loadableColB at hload
              rw [hS, hanyN] at hload
              simp at hload
          have hne : ¬ (colCells df.rows i).isEmpty = true := by
            cases hcs : colCells df.rows i with
            | nil =>
              rw [hcs] at hvmem
              simp at hvmem
            | cons a as => simp
          unfold colObjectOkB at hok
          rw [hanyS] at hok
          simp only [Bool.or_false] at hok
          exact hne hok
        | null => rfl
  · left
    unfold stripColumn
    rw [hi]
    show (if colObjectOkB df.rows i = true then
            some (DataFrame.mk df.cols (df.rows.map (modifyAt stripCell i)))
          else none) = none
    rw [if_neg hok]

/-- Witness for C9 at `dfNum`, whose `assessment_type` column is entirely
numeric (a loadable int64 column): the trim operation errors there. -/
theorem c9_witness :
    stripColumn dfNum "assessment_type" = none ∨
      ∃ df', stripColumn dfNum "assessment_type" = some df' ∧
        df'.cols = dfNum.cols ∧
        ∀ (k : Nat) (r : List Value), dfNum.rows[k]? = some r →
          ∀ v, r[3]? = some v → isNumericB v = true →
            ∃ r', df'.rows[k]? = some r' ∧ r'[3]? = some v :=
  c9_nonstring_untouched_or_error dfNum "assessment_type" 3 (by decide)
    (by decide) (by decide)

/-- C10: two input rows that differ solely in leading/trailing whitespace of
text-column cells both survive duplicate removal (they are still distinct
there), and the final output then contains their common trimmed image at
two distinct positions — identical rows in the written table. -/
theorem c10_ws_rows_survive_then_collapse (df y : DataFrame)
    (r1 r2 : List Value) (h : clean df = some y) (h1 : r1 ∈ df.rows)
    (h2 : r2 ∈ df.rows) (hws : differOnlyByTextWS df.cols r1 r2 = true) :
    ∃ d1, step1 df = some d1 ∧
      ∃ r1' r2', r1' ∈ (step2 d1).rows ∧ r2' ∈ (step2 d1).rows ∧ r1' ≠ r2' ∧
        ∃ (i j : Nat) (r : List Value),
          i ≠ j ∧ y.rows[i]? = some r ∧ y.rows[j]? = some r :=
  ws_pair_survives_and_collapses h h1 h2 hws

/-- Witness for C10 at a concrete pair of rows differing only by a leading
space in `code_presentation`. -/
theorem c10_witness :
    ∃ d1, step1 dfW10 = some d1 ∧
      ∃ r1' r2', r1' ∈ (step2 d1).rows ∧ r2' ∈ (step2 d1).rows ∧ r1' ≠ r2' ∧
        ∃ (i j : Nat) (r : List Value),
          i ≠ j ∧ dfW10Out.rows[i]? = some r ∧ dfW10Out.rows[j]? = some r :=
  c10_ws_rows_survive_then_collapse dfW10 dfW10Out rowA10 rowB10
    (by decide) (by decide) (by decide) (by decide)
